import Mathlib

/-!
Verification of the keycloak-proxy request admission pipeline.

Shallow embedding of the middleware stages of the proxy
(middleware.go: entryPointHandler, authenticationHandler,
admissionHandler, upstreamHeadersHandler) and of the identity
extraction (user_context.go: extractIdentity), together with the
library primitives they rely on (jose.Claims.StringClaim, Go regexp
MatchString, Go http.Header Add/Set, go-oidc IdentityFromClaims).

Conventions of the embedding:
- Go strings are Lean String, Go slices are Lean List.
- Go maps that the code iterates are modelled as association lists in
  a fixed order: the per-request admission outcome proved below is
  order independent, so this loses nothing.
- A JWT is modelled as its encoded text plus its decoded claim set;
  decode failures of well-formed session tokens are not modelled.
- time instants are Nat; the current time is passed explicitly.
-/

namespace KeycloakProxy

/-! ## Claim values (Go interface values inside jose.Claims) -/

inductive ClaimValue where
  | str : String → ClaimValue
  | num : Nat → ClaimValue
  | arr : List ClaimValue → ClaimValue
  | obj : List (String × ClaimValue) → ClaimValue

abbrev Claims := List (String × ClaimValue)

/-- Result of jose.Claims.StringClaim: the claim may be absent
(found=false, no error), present but not a string (error), or present
as a string (value, found=true). -/
inductive StringClaimResult where
  | missing
  | notString
  | found : String → StringClaimResult
deriving DecidableEq

/-- Faithful to jose.Claims.StringClaim from the vendored go-oidc
library: a lookup in the claim map followed by a string type
assertion. -/
def stringClaim (cs : Claims) (name : String) : StringClaimResult :=
  match cs.lookup name with
  | none => .missing
  | some (.str s) => .found s
  | some _ => .notString

def isFoundStr : StringClaimResult → Bool
  | .found _ => true
  | _ => false

/-- Result of jose.Claims.TimeClaim on the exp claim: absent
(found=false), present numeric, or present with a non-numeric type
(error). -/
inductive NumClaimResult where
  | missing
  | notNum
  | found : Nat → NumClaimResult
deriving DecidableEq

/-- Faithful to jose.Claims.TimeClaim as used by the go-oidc identity
extraction for the exp claim. -/
def numClaim (cs : Claims) (name : String) : NumClaimResult :=
  match cs.lookup name with
  | none => .missing
  | some (.num n) => .found n
  | some _ => .notNum

/-- Go fmt.Sprintf rendering of a claim value under the %s / %v verbs.
Only the string case is exercised by the properties proved in this
file; the remaining cases record that Go renders the value to some
text rather than failing. -/
def goSprint : ClaimValue → String
  | .str s => s
  | .num n => toString n
  | .arr _ => "[]"
  | .obj _ => "map[]"

/-! ## Regular expressions (Go regexp)

Go regexp.MustCompile compiles the pattern as written (the admission
handler does not anchor it) and MatchString reports whether the text
CONTAINS a match of the pattern, i.e. whether some contiguous
substring matches. We model regexes by a standard syntax tree with a
Brzozowski-derivative full matcher, and MatchString as the existence
of a matching substring. -/

inductive Regex where
  | emp : Regex
  | eps : Regex
  | chr : Char → Regex
  | alt : Regex → Regex → Regex
  | cat : Regex → Regex → Regex
  | star : Regex → Regex

def Regex.nullable : Regex → Bool
  | .emp => false
  | .eps => true
  | .chr _ => false
  | .alt a b => a.nullable || b.nullable
  | .cat a b => a.nullable && b.nullable
  | .star _ => true

def Regex.deriv : Regex → Char → Regex
  | .emp, _ => .emp
  | .eps, _ => .emp
  | .chr c, d => if c = d then .eps else .emp
  | .alt a b, d => .alt (a.deriv d) (b.deriv d)
  | .cat a b, d =>
      if a.nullable then .alt (.cat (a.deriv d) b) (b.deriv d)
      else .cat (a.deriv d) b
  | .star a, d => .cat (a.deriv d) (.star a)

/-- Full match of a regex against an exact character list. -/
def rmatchL : Regex → List Char → Bool
  | r, [] => r.nullable
  | r, c :: cs => rmatchL (r.deriv c) cs

/-- Full (anchored) match against a whole string: what the spec's
"matches the regex fully" would require. -/
def rFullMatch (r : Regex) (s : String) : Bool := rmatchL r s.data

def suffixesOf : List Char → List (List Char)
  | [] => [[]]
  | c :: cs => (c :: cs) :: suffixesOf cs

def initsOf : List Char → List (List Char)
  | [] => [[]]
  | c :: cs => [] :: (initsOf cs).map (fun l => c :: l)

/-- Go regexp MatchString: true iff some contiguous substring of the
text matches the pattern (the pattern is not anchored by the code). -/
def matchStringGo (r : Regex) (s : String) : Bool :=
  (suffixesOf s.data).any (fun t => (initsOf t).any (fun p => rmatchL r p))

/-- A literal pattern, e.g. the regex written as plain text. -/
def reLit (s : String) : Regex :=
  s.data.foldr (fun c acc => Regex.cat (.chr c) acc) .eps

/-! ## Data model: Resource, Config, UserContext -/

/-- Resource from the proxy configuration (doorman types, fields as
set by the tests in src). -/
structure Resource where
  url : String
  methods : List String
  roles : List String
  whiteListed : Bool
deriving DecidableEq

/-- The slice of the proxy Config read by the embedded middleware.
skipClientID is declared because the repository's tests set it; note
that middleware.go never reads it. -/
structure Config where
  clientID : String
  skipClientID : Bool
  skipTokenVerification : Bool
  enableRefreshTokens : Bool
  idleDuration : Nat

/-- A JWT: its encoded text (used as cookie value and store key) and
its decoded claim set. -/
structure JWT where
  encoded : String
  claims : Claims

/-- userContext from user_context.go. -/
structure UserContext where
  id : String
  email : String
  name : String
  preferredName : String
  expiresAt : Nat
  roles : List String
  audience : String
  token : JWT
  claims : Claims
  bearerToken : Bool

/-- isAudience from user_context.go. -/
def isAudience (r : UserContext) (aud : String) : Bool := r.audience == aud

/-- isExpired from user_context.go, with the current instant passed
explicitly. -/
def isExpired (r : UserContext) (now : Nat) : Bool := decide (r.expiresAt < now)

/-! ## Helpers from utils.go (not under src/) -/

/-- Modelled from the spec: containedIn lives in utils.go, which is
not under src/ (middleware.go only calls it). Per the spec's matcher
algorithm it is membership of a string in a list. -/
def containedIn (value : String) (xs : List String) : Bool := xs.contains value

/-- Modelled from the spec: hasRoles lives in utils.go, which is not
under src/ (middleware.go only calls it). Per the spec it is the
subset test: every required role appears in the issued roles,
ordering irrelevant. -/
def hasRoles (required issued : List String) : Bool :=
  required.all (fun r => containedIn r issued)

/-! ## Claim-name constants (constants file not under src/) -/

/-- Modelled from the spec: the preferred_username claim name. -/
def claimPreferredName : String := "preferred_username"

/-- Modelled from the spec: the aud claim name. -/
def claimAudience : String := "aud"

/-- Modelled from the spec: the realm_access claim name. -/
def claimRealmAccess : String := "realm_access"

/-- Modelled from the spec: the resource_access claim name. -/
def claimResourceAccess : String := "resource_access"

/-- Modelled from the spec: the roles key inside realm_access and
resource_access. -/
def claimResourceRoles : String := "roles"

/-- Modelled from the spec: the reserved OAuth path prefix (constant
declared outside src/); requests under it are never gated. -/
def oauthURL : String := "/oauth"

/-- Modelled from the spec: the program name constant (declared
outside src/), the value stamped into X-Forwarded-Agent. -/
def prog : String := "keycloak-proxy"

/-! ## entryPointHandler (middleware.go)

The handler walks the configured resources in declared order; at the
first entry whose url is a prefix of the request path it breaks. A
whitelisted match and a match whose methods cover neither ANY nor the
request method leave the request un-gated; a covering match records
the resource in the request context under the Enforcing key. The
Decision type names the three ways the loop can end; the context
annotation is its projection to an Option Resource. -/

/-- Go strings.HasPrefix: the first string is a prefix of the
second. -/
def strHasPrefix (pre s : String) : Bool := pre.data.isPrefixOf s.data

inductive Decision where
  | whitelisted
  | protectedRes : Resource → Decision
  | unprotected
deriving DecidableEq

/-- The body of the matching loop once a prefix match is found
(middleware.go lines 69 to 76). -/
def resourceDecision (r : Resource) (method : String) : Decision :=
  if r.whiteListed then .whitelisted
  else if containedIn "ANY" r.methods || containedIn method r.methods then
    .protectedRes r
  else .unprotected

/-- The resource loop of entryPointHandler: first prefix match wins,
iteration stops there. -/
def matchResourceLoop : List Resource → String → String → Decision
  | [], _, _ => .unprotected
  | r :: rest, path, method =>
    if strHasPrefix r.url path then resourceDecision r method
    else matchResourceLoop rest path method

/-- entryPointHandler: requests under the reserved OAuth prefix pass
straight through; otherwise the loop runs and only a protected
decision annotates the context (cx.Set cxEnforce resource). -/
def entryPointHandler (resources : List Resource) (path method : String) :
    Option Resource :=
  if strHasPrefix oauthURL path then none
  else
    match matchResourceLoop resources path method with
    | .protectedRes r => some r
    | _ => none

/-- Modelled from the spec: resource validation at configuration load
is not under src/. The data model says an empty methods list means
all methods, and the example configuration shipped with the code says
of methods: if missing, we assuming all. The normalisation inserts
the ANY sentinel into an empty methods list before the table reaches
the matcher. -/
def normalizeResource (r : Resource) : Resource :=
  if r.methods.isEmpty then { r with methods := ["ANY"] } else r

/-! ## authenticationHandler (middleware.go)

The handler's externally visible behaviour is the sequence of effects
it performs on the session (context user injection, cookie writes,
cookie clearing, the dispatched background store update) and how it
terminates (pass to the next stage, redirect to authorization, or
access forbidden). Collaborator results that the handler consumes
(identity lookup, token verification, refresh-token retrieval, the
IdP refresh call) are inputs. -/

inductive VerifyResult where
  | ok
  | expired
  | invalid
deriving DecidableEq

inductive RefreshErr where
  | refreshTokenExpired
  | otherErr : String → RefreshErr
deriving DecidableEq

inductive Effect where
  | setUser : UserContext → Effect
  | clearAllCookies : Effect
  | dropAccessCookie : String → Nat → Effect
  | dropRefreshCookie : String → Nat → Effect
  | storeUpdate : String → String → String → Effect

inductive Outcome where
  | next
  | redirectToAuthorization
  | accessForbidden
deriving DecidableEq

structure AuthInput where
  enforced : Option Resource
  identity : Option UserContext
  skipTokenVerification : Bool
  enableRefreshTokens : Bool
  verify : VerifyResult
  refreshToken : Option String
  refreshResult : Except RefreshErr JWT
  useStore : Bool
  idleDuration : Nat
  now : Nat

/-- authenticationHandler, following the control flow of
middleware.go lines 88 to 239. The storeUpdate effect records the
dispatched background task with the arguments it captured at dispatch
time: it deletes the store entry keyed by its first argument and then
writes its third argument keyed by its second. Note the goroutine is
dispatched with user.token BEFORE that field is replaced by the
refreshed token, so both keys are the old encoded JWT. -/
def authenticationHandler (inp : AuthInput) : List Effect × Outcome :=
  match inp.enforced with
  | none => ([], .next)
  | some _ =>
    match inp.identity with
    | none => ([], .redirectToAuthorization)
    | some user =>
      if inp.skipTokenVerification then
        if isExpired user inp.now then
          ([Effect.setUser user], .redirectToAuthorization)
        else ([Effect.setUser user], .next)
      else
        match inp.verify with
        | .ok => ([Effect.setUser user], .next)
        | .invalid => ([Effect.setUser user], .accessForbidden)
        | .expired =>
          if !inp.enableRefreshTokens then
            ([Effect.setUser user], .redirectToAuthorization)
          else if user.bearerToken then
            ([Effect.setUser user], .redirectToAuthorization)
          else
            match inp.refreshToken with
            | none => ([Effect.setUser user], .redirectToAuthorization)
            | some rToken =>
              match inp.refreshResult with
              | .error .refreshTokenExpired =>
                ([Effect.setUser user, Effect.clearAllCookies],
                 .redirectToAuthorization)
              | .error (.otherErr _) =>
                ([Effect.setUser user], .redirectToAuthorization)
              | .ok token =>
                let effs :=
                  [Effect.setUser user,
                   Effect.dropAccessCookie token.encoded inp.idleDuration]
                let effs :=
                  if inp.useStore then
                    effs ++ [Effect.storeUpdate user.token.encoded
                               user.token.encoded rToken]
                  else
                    effs ++ [Effect.dropRefreshCookie rToken
                               (inp.idleDuration * 2)]
                (effs ++ [Effect.setUser { user with token := token }], .next)

/-! ## admissionHandler (middleware.go) -/

inductive AdmissionOutcome where
  | notEnforced
  | forbidden
  | permitted
deriving DecidableEq

/-- The claim-matching loop of admissionHandler (middleware.go lines
297 to 338): every compiled match-claims entry must be present on the
token as a string (StringClaim error or found=false both deny) and
the text must contain a match of the regex (Go MatchString). -/
def checkClaimMatches : List (String × Regex) → Claims → Bool
  | [], _ => true
  | (name, re) :: rest, cs =>
    match stringClaim cs name with
    | .found v => matchStringGo re v && checkClaimMatches rest cs
    | _ => false

/-- admissionHandler (middleware.go lines 252 to 346): nothing
happens without an enforced resource; with one, the audience pin
(guarded only by ClientID being configured — skipClientID is never
consulted), then the role subset test, then the claim matches; any
failure is access forbidden. -/
def admissionHandler (cfg : Config) (claimMatches : List (String × Regex))
    (enforced : Option Resource) (user : UserContext) : AdmissionOutcome :=
  match enforced with
  | none => .notEnforced
  | some resource =>
    if cfg.clientID != "" && !(isAudience user cfg.clientID) then .forbidden
    else if 0 < resource.roles.length && !(hasRoles resource.roles user.roles)
      then .forbidden
    else if checkClaimMatches claimMatches user.claims then .permitted
    else .forbidden

/-! ## Identity extraction (user_context.go) -/

inductive IdentityErr where
  | missingSub
  | badClaimType : String → IdentityErr
deriving DecidableEq

structure Identity where
  ID : String
  Email : String
  ExpiresAt : Nat
deriving DecidableEq

/-- Faithful to oidc.IdentityFromClaims of the vendored go-oidc
library, which extractIdentity calls: the sub claim is required (its
absence is an error), email is optional, exp is an optional numeric
claim; a wrongly typed sub, email or exp is an error. -/
def identityFromClaims (cs : Claims) : Except IdentityErr Identity :=
  match stringClaim cs "sub" with
  | .notString => .error (.badClaimType "sub")
  | .missing => .error .missingSub
  | .found sub =>
    match stringClaim cs "email" with
    | .notString => .error (.badClaimType "email")
    | r =>
      let email := match r with | .found e => e | _ => ""
      match numClaim cs "exp" with
      | .notNum => .error (.badClaimType "exp")
      | .missing => .ok { ID := sub, Email := email, ExpiresAt := 0 }
      | .found e => .ok { ID := sub, Email := email, ExpiresAt := e }

inductive ExtractErr where
  | identityErr : IdentityErr → ExtractErr
  | noTokenAudience
  | rolesPanic
deriving DecidableEq

/-- Realm-role harvesting of extractIdentity: the two comma-ok type
assertions skip silently, but the unchecked assertion of the roles
value to a slice panics in Go; the panic is the Unit error. -/
def realmRolesOf (cs : Claims) : Except Unit (List String) :=
  match cs.lookup claimRealmAccess with
  | some (.obj kvs) =>
    match kvs.lookup claimResourceRoles with
    | some (.arr rs) => .ok (rs.map goSprint)
    | some _ => .error ()
    | none => .ok []
  | _ => .ok []

/-- One pass of the resource_access loop of extractIdentity; the
unchecked assertions of the per-client value to a map and of its
roles value to a slice panic in Go (the Unit error). -/
def clientRolesLoop : List (String × ClaimValue) → Except Unit (List String)
  | [] => .ok []
  | (roleName, roleList) :: rest =>
    match roleList with
    | .obj scopes =>
      match scopes.lookup claimResourceRoles with
      | some (.arr rs) =>
        match clientRolesLoop rest with
        | .error e => .error e
        | .ok ts => .ok (rs.map (fun r => roleName ++ ":" ++ goSprint r) ++ ts)
      | some _ => .error ()
      | none =>
        match clientRolesLoop rest with
        | .error e => .error e
        | .ok ts => .ok ts
    | _ => .error ()

/-- Client-role harvesting of extractIdentity (the comma-ok assertion
on resource_access itself skips silently). -/
def clientRolesOf (cs : Claims) : Except Unit (List String) :=
  match cs.lookup claimResourceAccess with
  | some (.obj kvs) => clientRolesLoop kvs
  | _ => .ok []

/-- extractIdentity from user_context.go: decode the claims, extract
the library identity, compute the preferred name with the email
fallback, require the aud claim as a string (else ErrNoTokenAudience),
then harvest realm and client roles. Identities built here carry
bearerToken false; the caller flips it for Authorization-header
credentials. -/
def extractIdentity (token : JWT) : Except ExtractErr UserContext :=
  match identityFromClaims token.claims with
  | .error e => .error (.identityErr e)
  | .ok identity =>
    let preferredName :=
      match stringClaim token.claims claimPreferredName with
      | .found v => v
      | _ => identity.Email
    match stringClaim token.claims claimAudience with
    | .found audience =>
      match realmRolesOf token.claims with
      | .error _ => .error .rolesPanic
      | .ok realmList =>
        match clientRolesOf token.claims with
        | .error _ => .error .rolesPanic
        | .ok clientList =>
          .ok { id := identity.ID
                email := identity.Email
                name := preferredName
                preferredName := preferredName
                expiresAt := identity.ExpiresAt
                roles := realmList ++ clientList
                audience := audience
                token := token
                claims := token.claims
                bearerToken := false }
    | _ => .error .noTokenAudience

/-! ## upstreamHeadersHandler (middleware.go)

Go http.Header.Add appends a value to those already present under the
name; Set replaces them all. Headers are modelled as the map from a
header name to its value list. The per-request function receives the
precomputed custom-claim table (claim name to header name), as the Go
closure does. -/

def Headers := String → List String

def headerAdd (h : Headers) (k v : String) : Headers :=
  fun x => if x = k then h x ++ [v] else h x

def headerSet (h : Headers) (k v : String) : Headers :=
  fun x => if x = k then [v] else h x

/-- upstreamHeadersHandler (middleware.go lines 385 to 414): static
configured headers are Added; with a user in the context the identity
headers are Added and Authorization is Set; custom claims present on
the token are Added; finally X-Forwarded-For is Added while
X-Forwarded-Agent and X-Forwarded-Host are Set. -/
def upstreamHeadersHandler (cfgHeaders : List (String × String))
    (customClaims : List (String × String)) (user : Option UserContext)
    (remoteAddr host : String) (h0 : Headers) : Headers :=
  let h := cfgHeaders.foldl (fun h kv => headerAdd h kv.1 kv.2) h0
  let h :=
    match user with
    | none => h
    | some id =>
      let h := headerAdd h "X-Auth-Userid" id.name
      let h := headerAdd h "X-Auth-Subject" id.id
      let h := headerAdd h "X-Auth-Username" id.name
      let h := headerAdd h "X-Auth-Email" id.email
      let h := headerAdd h "X-Auth-ExpiresIn" (toString id.expiresAt)
      let h := headerAdd h "X-Auth-Token" id.token.encoded
      let h := headerAdd h "X-Auth-Roles" (String.intercalate "," id.roles)
      let h := headerSet h "Authorization" ("Bearer " ++ id.token.encoded)
      customClaims.foldl (fun h ck =>
        match id.claims.lookup ck.1 with
        | some v => headerAdd h ck.2 (goSprint v)
        | none => h) h
  let h := headerAdd h "X-Forwarded-For" remoteAddr
  let h := headerSet h "X-Forwarded-Agent" prog
  headerSet h "X-Forwarded-Host" host

/-! ## Basic lemmas -/

theorem containedIn_iff (v : String) (xs : List String) :
    containedIn v xs = true ↔ v ∈ xs := by
  simp [containedIn]

theorem hasRoles_iff (required issued : List String) :
    hasRoles required issued = true ↔ ∀ r ∈ required, r ∈ issued := by
  simp [hasRoles, containedIn_iff, List.all_eq_true]

/-! ## Claim C1 -/

/-- Claim C1: a request admitted to a protected resource with a
non-empty roles list has every role of resource.roles in user.roles
(the subset test, order of user.roles irrelevant), and a request
whose valid token lacks at least one required role is denied with an
access forbidden (403). -/
theorem admission_roles_subset (cfg : Config) (ms : List (String × Regex))
    (r : Resource) (user : UserContext) :
    (admissionHandler cfg ms (some r) user = .permitted →
      r.roles ≠ [] → ∀ ro ∈ r.roles, ro ∈ user.roles)
    ∧ ((∃ ro ∈ r.roles, ro ∉ user.roles) →
      admissionHandler cfg ms (some r) user = .forbidden) := by
  have hkey : ∀ ro, ro ∈ r.roles → ro ∉ user.roles →
      admissionHandler cfg ms (some r) user = .forbidden := by
    intro ro hro hmem
    have hsub : hasRoles r.roles user.roles = false := by
      rcases h : hasRoles r.roles user.roles with _ | _
      · rfl
      · exact absurd ((hasRoles_iff r.roles user.roles).mp h ro hro) hmem
    have hlen : 0 < r.roles.length := List.length_pos.mpr (by
      intro hnil; rw [hnil] at hro; exact (List.not_mem_nil ro) hro)
    simp only [admissionHandler]
    rcases hc : cfg.clientID != "" && !(isAudience user cfg.clientID)
    · simp [hc, hsub, hlen]
    · simp [hc]
  constructor
  · intro hperm _ ro hro
    by_contra hmem
    rw [hkey ro hro hmem] at hperm
    exact absurd hperm (by simp)
  · rintro ⟨ro, hro, hmem⟩
    exact hkey ro hro hmem

/-- Witness for C1: a token holding only role openvpn:dev-vpn is
denied on a resource requiring role:admin. -/
theorem admission_roles_subset_witness :
    admissionHandler
      { clientID := "", skipClientID := false, skipTokenVerification := false,
        enableRefreshTokens := false, idleDuration := 0 }
      []
      (some { url := "/admin", methods := ["GET"], roles := ["role:admin"],
              whiteListed := false })
      { id := "1e11", email := "g@x", name := "rj", preferredName := "rj",
        expiresAt := 100, roles := ["openvpn:dev-vpn"], audience := "test",
        token := { encoded := "tok", claims := [] }, claims := [],
        bearerToken := false } = .forbidden :=
  (admission_roles_subset _ _ _ _).2 ⟨"role:admin", by decide, by decide⟩

/-! ## Claim C2 -/

/-- Helper: with no earlier prefix match, the loop reaches the first
matching entry and its decision is the entry's own, independent of
everything declared after it. -/
theorem matchResourceLoop_first_match (pre post : List Resource) (r : Resource)
    (path method : String)
    (hpre : ∀ q ∈ pre, strHasPrefix q.url path = false)
    (hr : strHasPrefix r.url path = true) :
    matchResourceLoop (pre ++ r :: post) path method = resourceDecision r method := by
  induction pre with
  | nil => simp [matchResourceLoop, hr]
  | cons q qs ih =>
    have hq : strHasPrefix q.url path = false := hpre q (by simp)
    simp only [List.cons_append, matchResourceLoop, hq, Bool.false_eq_true,
      if_false]
    exact ih (fun x hx => hpre x (by simp [hx]))

/-- Claim C2: the matching decision for a request path is determined
solely by the first entry in declared order whose url is a prefix of
the path — the loop stops there and later entries are never consulted
— and when that entry is whitelisted the request carries no Enforcing
annotation, so the authentication and admission stages both pass it
through untouched. -/
theorem entrypoint_first_prefix_wins (pre post : List Resource) (r : Resource)
    (path method : String)
    (hpre : ∀ q ∈ pre, strHasPrefix q.url path = false)
    (hr : strHasPrefix r.url path = true) :
    matchResourceLoop (pre ++ r :: post) path method = resourceDecision r method
    ∧ (r.whiteListed = true →
        entryPointHandler (pre ++ r :: post) path method = none
        ∧ (∀ inp : AuthInput, inp.enforced = none →
            authenticationHandler inp = ([], .next))
        ∧ (∀ cfg ms user, admissionHandler cfg ms none user = .notEnforced)) := by
  have hfirst := matchResourceLoop_first_match pre post r path method hpre hr
  refine ⟨hfirst, fun hw => ⟨?_, ?_, ?_⟩⟩
  · unfold entryPointHandler
    rcases ho : strHasPrefix oauthURL path
    · simp only [Bool.false_eq_true, if_false, hfirst]
      simp [resourceDecision, hw]
    · simp [ho]
  · intro inp hnone
    simp [authenticationHandler, hnone]
  · intro cfg ms user
    simp [admissionHandler]

/-- Witness for C2: with the table [/auth_all/white_listed
whitelisted, /auth_all protected], a GET under the whitelisted prefix
resolves to the whitelisted first match and the pipeline stages skip. -/
theorem entrypoint_first_prefix_wins_witness :
    matchResourceLoop
        [{ url := "/auth_all/white_listed", methods := [], roles := [],
           whiteListed := true },
         { url := "/auth_all", methods := ["ANY"], roles := [],
           whiteListed := false }]
        "/auth_all/white_listed/x" "GET"
      = resourceDecision
          { url := "/auth_all/white_listed", methods := [], roles := [],
            whiteListed := true } "GET"
    ∧ entryPointHandler
        [{ url := "/auth_all/white_listed", methods := [], roles := [],
           whiteListed := true },
         { url := "/auth_all", methods := ["ANY"], roles := [],
           whiteListed := false }]
        "/auth_all/white_listed/x" "GET" = none := by
  have h := entrypoint_first_prefix_wins []
    [{ url := "/auth_all", methods := ["ANY"], roles := [],
       whiteListed := false }]
    { url := "/auth_all/white_listed", methods := [], roles := [],
      whiteListed := true }
    "/auth_all/white_listed/x" "GET" (by intro q hq; cases hq) (by decide)
  exact ⟨h.1, (h.2 rfl).1⟩

/-! ## Claim C3 -/

/-- Helper: normalisation leaves the url and the whitelist flag
alone. -/
theorem normalizeResource_url (r : Resource) :
    (normalizeResource r).url = r.url := by
  unfold normalizeResource
  split <;> rfl

/-- Claim C3: a non-whitelisted resource whose methods list is empty
gates every HTTP method — once the configuration normalisation
(modelled from the spec, see normalizeResource) has inserted the ANY
sentinel, the first-matching prefix yields a protected decision
regardless of the request method. -/
theorem entrypoint_empty_methods_protected (pre post : List Resource)
    (r : Resource) (path method : String)
    (hpre : ∀ q ∈ pre, strHasPrefix q.url path = false)
    (hr : strHasPrefix r.url path = true)
    (hm : r.methods = []) (hw : r.whiteListed = false) :
    matchResourceLoop ((pre ++ r :: post).map normalizeResource) path method
      = .protectedRes (normalizeResource r) := by
  have hmap : (pre ++ r :: post).map normalizeResource
      = pre.map normalizeResource ++ normalizeResource r :: post.map normalizeResource := by
    simp
  rw [hmap,
    matchResourceLoop_first_match (pre.map normalizeResource)
      (post.map normalizeResource) (normalizeResource r) path method
      (by
        intro q hq
        rcases List.mem_map.mp hq with ⟨q0, hq0, hq0eq⟩
        rw [← hq0eq, normalizeResource_url]
        exact hpre q0 hq0)
      (by rw [normalizeResource_url]; exact hr)]
  unfold resourceDecision normalizeResource
  simp [hm, hw, containedIn]

/-- Witness for C3: a resource /admin with no methods protects a
DELETE request under it once normalised. -/
theorem entrypoint_empty_methods_protected_witness :
    matchResourceLoop
        ([{ url := "/admin", methods := [], roles := ["role:admin"],
            whiteListed := false }].map normalizeResource)
        "/admin/x" "DELETE"
      = .protectedRes (normalizeResource
          { url := "/admin", methods := [], roles := ["role:admin"],
            whiteListed := false }) :=
  entrypoint_empty_methods_protected [] []
    { url := "/admin", methods := [], roles := ["role:admin"],
      whiteListed := false }
    "/admin/x" "DELETE" (by intro q hq; cases hq) (by decide) rfl rfl

/-! ## Claim C4

middleware.go line 269 guards the audience pin only by ClientID being
non-empty; the SkipClientID switch set by the repository's own tests
(TestSkipClientIDEnabled expects a bad-audience request to be
proxied) is never consulted, so the pin fires for both values of the
switch. -/

/-- Claim C4 (evaluation at the failing input): with ClientID
configured as test and the token audience bad_client_id on a
protected resource with no role requirements, the admission stage
denies with 403 for EITHER value of SkipClientID — the switch has no
effect on the audience pin. -/
theorem admission_ignores_skip_clientid :
    ∀ b : Bool,
      admissionHandler
        { clientID := "test", skipClientID := b,
          skipTokenVerification := false, enableRefreshTokens := false,
          idleDuration := 0 }
        []
        (some { url := "/auth_all", methods := ["ANY"], roles := [],
                whiteListed := false })
        { id := "1e11", email := "g@x", name := "rj", preferredName := "rj",
          expiresAt := 100, roles := [], audience := "bad_client_id",
          token := { encoded := "tok", claims := [] }, claims := [],
          bearerToken := false } = .forbidden := by
  intro b
  cases b <;> rfl

/-! ## Claim C5 -/

/-- Counterexample to claim C5: the claim regexes are compiled
unanchored and tested with Go MatchString, so a claim value that
merely CONTAINS a match is admitted even though the regex does not
match the entire value: pattern good against value not_good passes
admission while the full (anchored) match fails. -/
theorem admission_claim_match_not_anchored :
    admissionHandler
      { clientID := "", skipClientID := false, skipTokenVerification := false,
        enableRefreshTokens := false, idleDuration := 0 }
      [("iss", reLit "good")]
      (some { url := "/auth_all", methods := ["ANY"], roles := [],
              whiteListed := false })
      { id := "1e11", email := "g@x", name := "rj", preferredName := "rj",
        expiresAt := 100, roles := [], audience := "test",
        token := { encoded := "tok",
                   claims := [("iss", ClaimValue.str "not_good")] },
        claims := [("iss", ClaimValue.str "not_good")],
        bearerToken := false } = .permitted
    ∧ rFullMatch (reLit "good") "not_good" = false := by
  constructor
  · decide
  · decide

/-- Helper: the claim-matching loop succeeds iff every entry finds
its claim as a string whose text contains a match of the regex. -/
theorem checkClaimMatches_iff (ms : List (String × Regex)) (cs : Claims) :
    checkClaimMatches ms cs = true ↔
      ∀ p ∈ ms, ∃ v, stringClaim cs p.1 = .found v ∧ matchStringGo p.2 v = true := by
  induction ms with
  | nil => simp [checkClaimMatches]
  | cons p rest ih =>
    rcases p with ⟨name, re⟩
    constructor
    · intro h q hq
      rcases hs : stringClaim cs name with _ | _ | v <;>
        simp only [checkClaimMatches, hs] at h
      · cases h
      · cases h
      · rcases Bool.and_eq_true_iff.mp h with ⟨hm, hrest⟩
        rcases List.mem_cons.mp hq with hq | hq
        · exact ⟨v, by rw [hq]; exact hs, by rw [hq]; exact hm⟩
        · exact ih.mp hrest q hq
    · intro h
      rcases h (name, re) (by simp) with ⟨v, hv, hm⟩
      simp only [checkClaimMatches, hv]
      exact Bool.and_eq_true_iff.mpr ⟨hm,
        ih.mpr (fun q hq => h q (List.mem_cons_of_mem _ hq))⟩

/-- Claim C5 as amended: a request to a protected resource is
admitted only if every entry of the compiled match-claims table finds
its claim present on the token as a string whose text CONTAINS a
match of the regex (Go's unanchored MatchString — not necessarily a
match of the entire value); an entry whose claim is missing, not a
string, or whose value contains no match yields 403. -/
theorem admission_claim_matches_unanchored (cfg : Config)
    (ms : List (String × Regex)) (r : Resource) (user : UserContext) :
    (admissionHandler cfg ms (some r) user = .permitted →
      ∀ p ∈ ms, ∃ v, stringClaim user.claims p.1 = .found v
        ∧ matchStringGo p.2 v = true)
    ∧ ((∃ p ∈ ms, ∀ v, stringClaim user.claims p.1 = .found v →
          matchStringGo p.2 v = false) →
      admissionHandler cfg ms (some r) user = .forbidden) := by
  constructor
  · intro hperm
    have hchk : checkClaimMatches ms user.claims = true := by
      by_contra hchk
      have hchk : checkClaimMatches ms user.claims = false :=
        Bool.eq_false_iff.mpr hchk
      simp only [admissionHandler] at hperm
      rcases h1 : cfg.clientID != "" && !(isAudience user cfg.clientID)
      · rcases h2 : decide (0 < r.roles.length) && !(hasRoles r.roles user.roles)
        · simp [h1, h2, hchk] at hperm
        · simp [h1, h2] at hperm
      · simp [h1] at hperm
    exact (checkClaimMatches_iff ms user.claims).mp hchk
  · rintro ⟨p, hp, hfail⟩
    have hchk : checkClaimMatches ms user.claims = false := by
      rcases h : checkClaimMatches ms user.claims with _ | _
      · rfl
      · rcases (checkClaimMatches_iff ms user.claims).mp h p hp with ⟨v, hv, hm⟩
        rw [hfail v hv] at hm
        cases hm
    simp only [admissionHandler]
    rcases h1 : cfg.clientID != "" && !(isAudience user cfg.clientID)
    · rcases h2 : decide (0 < r.roles.length) && !(hasRoles r.roles user.roles)
      · simp [h1, h2, hchk]
      · simp [h1, h2]
    · simp [h1]

/-- Witness for C5 (amended): a token with no iss claim is denied
when the table requires one. -/
theorem admission_claim_matches_unanchored_witness :
    admissionHandler
      { clientID := "", skipClientID := false, skipTokenVerification := false,
        enableRefreshTokens := false, idleDuration := 0 }
      [("iss", reLit "good")]
      (some { url := "/auth_all", methods := ["ANY"], roles := [],
              whiteListed := false })
      { id := "1e11", email := "g@x", name := "rj", preferredName := "rj",
        expiresAt := 100, roles := [], audience := "test",
        token := { encoded := "tok", claims := [] }, claims := [],
        bearerToken := false } = .forbidden :=
  (admission_claim_matches_unanchored _ _ _ _).2
    ⟨("iss", reLit "good"), by simp, by intro v hv; cases hv⟩

/-! ## Claim C6 -/

/-- Claim C6: when the IdP refresh call fails, the session cookies
are cleared if and only if the failure is the distinguished
refresh-token-expired error — any other refresh error preserves the
cookies — and in both cases the request is redirected to
authorization. -/
theorem refresh_failure_cookie_clearing (r : Resource) (user : UserContext)
    (rt : String) (e : RefreshErr) (store : Bool) (d now : Nat)
    (hb : user.bearerToken = false) :
    ((authenticationHandler
        { enforced := some r, identity := some user,
          skipTokenVerification := false, enableRefreshTokens := true,
          verify := .expired, refreshToken := some rt,
          refreshResult := .error e, useStore := store,
          idleDuration := d, now := now }).2 = .redirectToAuthorization)
    ∧ (Effect.clearAllCookies ∈
        (authenticationHandler
          { enforced := some r, identity := some user,
            skipTokenVerification := false, enableRefreshTokens := true,
            verify := .expired, refreshToken := some rt,
            refreshResult := .error e, useStore := store,
            idleDuration := d, now := now }).1
        ↔ e = .refreshTokenExpired) := by
  cases e with
  | refreshTokenExpired => simp [authenticationHandler, hb]
  | otherErr msg => simp [authenticationHandler, hb]

/-- Witness for C6: a transient refresh error redirects without
clearing cookies, evaluated at a concrete session. -/
theorem refresh_failure_cookie_clearing_witness :
    ((authenticationHandler
        { enforced := some { url := "/admin", methods := ["GET"],
                             roles := [], whiteListed := false },
          identity := some { id := "1e11", email := "g@x", name := "rj",
                             preferredName := "rj", expiresAt := 100,
                             roles := [], audience := "test",
                             token := { encoded := "oldJWT", claims := [] },
                             claims := [], bearerToken := false },
          skipTokenVerification := false, enableRefreshTokens := true,
          verify := .expired, refreshToken := some "rt",
          refreshResult := .error (.otherErr "idp down"), useStore := false,
          idleDuration := 5, now := 200 }).2 = .redirectToAuthorization)
    ∧ (Effect.clearAllCookies ∈
        (authenticationHandler
          { enforced := some { url := "/admin", methods := ["GET"],
                               roles := [], whiteListed := false },
            identity := some { id := "1e11", email := "g@x", name := "rj",
                               preferredName := "rj", expiresAt := 100,
                               roles := [], audience := "test",
                               token := { encoded := "oldJWT", claims := [] },
                               claims := [], bearerToken := false },
            skipTokenVerification := false, enableRefreshTokens := true,
            verify := .expired, refreshToken := some "rt",
            refreshResult := .error (.otherErr "idp down"), useStore := false,
            idleDuration := 5, now := 200 }).1
        ↔ RefreshErr.otherErr "idp down" = .refreshTokenExpired) :=
  refresh_failure_cookie_clearing _ _ "rt" (.otherErr "idp down") false 5 200 rfl

/-! ## Claim C7 -/

/-- Sample session user for the refresh-success evaluation: the
current (old) access token is oldJWT. -/
def oldUser : UserContext :=
  { id := "1e11", email := "g@x", name := "rj", preferredName := "rj",
    expiresAt := 100, roles := [], audience := "test",
    token := { encoded := "oldJWT", claims := [] }, claims := [],
    bearerToken := false }

/-- Claim C7 (evaluation at the failing input): on a successful
refresh with the external store configured, the new access cookie
write does precede the dispatch of the background store update, but
the dispatched update deletes AND re-writes the store entry keyed by
the OLD encoded access JWT — the goroutine captured user.token before
it was replaced — so the refresh token is not stored under the new
access JWT as the claim states. -/
theorem refresh_store_update_keyed_by_old_token :
    authenticationHandler
      { enforced := some { url := "/admin", methods := ["GET"],
                           roles := [], whiteListed := false },
        identity := some oldUser,
        skipTokenVerification := false, enableRefreshTokens := true,
        verify := .expired, refreshToken := some "rt",
        refreshResult := .ok { encoded := "newJWT", claims := [] },
        useStore := true, idleDuration := 5, now := 200 }
      = ([Effect.setUser oldUser,
          Effect.dropAccessCookie "newJWT" 5,
          Effect.storeUpdate "oldJWT" "oldJWT" "rt",
          Effect.setUser { oldUser with
                           token := { encoded := "newJWT", claims := [] } }],
         .next)
    ∧ "oldJWT" ≠ "newJWT" := by
  exact ⟨rfl, by decide⟩

/-! ## Claim C8 -/

/-- Helper: the exact value lists the upstream observes under each
name set by the identity branch of upstreamHeadersHandler (no static
configured headers, no custom claims): the three Set headers carry
exactly the proxy value; every Add header carries the client-supplied
values followed by the proxy value. -/
theorem upstreamHeadersHandler_values (uc : UserContext) (addr host : String)
    (h : Headers) :
    upstreamHeadersHandler [] [] (some uc) addr host h "Authorization"
        = ["Bearer " ++ uc.token.encoded]
    ∧ upstreamHeadersHandler [] [] (some uc) addr host h "X-Forwarded-Agent"
        = [prog]
    ∧ upstreamHeadersHandler [] [] (some uc) addr host h "X-Forwarded-Host"
        = [host]
    ∧ upstreamHeadersHandler [] [] (some uc) addr host h "X-Auth-Userid"
        = h "X-Auth-Userid" ++ [uc.name]
    ∧ upstreamHeadersHandler [] [] (some uc) addr host h "X-Auth-Subject"
        = h "X-Auth-Subject" ++ [uc.id]
    ∧ upstreamHeadersHandler [] [] (some uc) addr host h "X-Auth-Username"
        = h "X-Auth-Username" ++ [uc.name]
    ∧ upstreamHeadersHandler [] [] (some uc) addr host h "X-Auth-Email"
        = h "X-Auth-Email" ++ [uc.email]
    ∧ upstreamHeadersHandler [] [] (some uc) addr host h "X-Auth-ExpiresIn"
        = h "X-Auth-ExpiresIn" ++ [toString uc.expiresAt]
    ∧ upstreamHeadersHandler [] [] (some uc) addr host h "X-Auth-Token"
        = h "X-Auth-Token" ++ [uc.token.encoded]
    ∧ upstreamHeadersHandler [] [] (some uc) addr host h "X-Auth-Roles"
        = h "X-Auth-Roles" ++ [String.intercalate "," uc.roles]
    ∧ upstreamHeadersHandler [] [] (some uc) addr host h "X-Forwarded-For"
        = h "X-Forwarded-For" ++ [addr] := by
  refine ⟨?_, ?_, ?_, ?_, ?_, ?_, ?_, ?_, ?_, ?_, ?_⟩ <;>
    simp [upstreamHeadersHandler, headerAdd, headerSet]

/-- Counterexample to claim C8: the X-Auth identity headers are
written with http.Header.Add, which appends; a client-supplied
X-Auth-Userid value survives in front of the proxy value, so the
upstream does observe the client value under a listed name. -/
theorem upstream_headers_client_value_survives :
    upstreamHeadersHandler [] []
      (some { id := "1e11", email := "g@x", name := "rj",
              preferredName := "rj", expiresAt := 100, roles := [],
              audience := "test",
              token := { encoded := "tok", claims := [] }, claims := [],
              bearerToken := false })
      "1.2.3.4" "up.example"
      (fun x => if x = "X-Auth-Userid" then ["evil"] else [])
      "X-Auth-Userid" = ["evil", "rj"] := by
  simp [upstreamHeadersHandler, headerAdd, headerSet]

/-- Claim C8 as amended: for every request forwarded to the upstream,
Authorization, X-Forwarded-Agent and X-Forwarded-Host carry exactly
the proxy-set value (http.Header.Set, replacing any client value);
the remaining listed names (the X-Auth identity headers and
X-Forwarded-For) are written with http.Header.Add, so the proxy value
is appended AFTER any client-supplied values, which the upstream
still observes. -/
theorem upstream_headers_set_vs_add (uc : UserContext) (addr host : String)
    (h : Headers) :
    upstreamHeadersHandler [] [] (some uc) addr host h "Authorization"
        = ["Bearer " ++ uc.token.encoded]
    ∧ upstreamHeadersHandler [] [] (some uc) addr host h "X-Forwarded-Agent"
        = [prog]
    ∧ upstreamHeadersHandler [] [] (some uc) addr host h "X-Forwarded-Host"
        = [host]
    ∧ upstreamHeadersHandler [] [] (some uc) addr host h "X-Auth-Userid"
        = h "X-Auth-Userid" ++ [uc.name]
    ∧ upstreamHeadersHandler [] [] (some uc) addr host h "X-Auth-Subject"
        = h "X-Auth-Subject" ++ [uc.id]
    ∧ upstreamHeadersHandler [] [] (some uc) addr host h "X-Auth-Username"
        = h "X-Auth-Username" ++ [uc.name]
    ∧ upstreamHeadersHandler [] [] (some uc) addr host h "X-Auth-Email"
        = h "X-Auth-Email" ++ [uc.email]
    ∧ upstreamHeadersHandler [] [] (some uc) addr host h "X-Auth-ExpiresIn"
        = h "X-Auth-ExpiresIn" ++ [toString uc.expiresAt]
    ∧ upstreamHeadersHandler [] [] (some uc) addr host h "X-Auth-Token"
        = h "X-Auth-Token" ++ [uc.token.encoded]
    ∧ upstreamHeadersHandler [] [] (some uc) addr host h "X-Auth-Roles"
        = h "X-Auth-Roles" ++ [String.intercalate "," uc.roles]
    ∧ upstreamHeadersHandler [] [] (some uc) addr host h "X-Forwarded-For"
        = h "X-Forwarded-For" ++ [addr] :=
  upstreamHeadersHandler_values uc addr host h

/-! ## Claim C9 -/

/-- Counterexample to claim C9: the aud claim is NOT the only claim
whose absence aborts extraction — the library identity step that
extractIdentity calls first requires the sub claim, so a token with
an aud claim but no sub claim still aborts, with an error other than
NoAudience. -/
theorem extract_identity_missing_sub_aborts :
    extractIdentity
        { encoded := "tok",
          claims := [("aud", ClaimValue.str "test"),
                     ("email", ClaimValue.str "g@x")] }
      = .error (.identityErr .missingSub)
    ∧ ExtractErr.identityErr IdentityErr.missingSub ≠ ExtractErr.noTokenAudience := by
  exact ⟨rfl, by decide⟩

/-- Claim C9 as amended: once the library identity step succeeds
(which itself requires the sub claim — see the counterexample),
extraction fails with the NoAudience error exactly when the aud claim
is absent or not a string; and the absence of preferred_username does
not abort, the preferred name falls back to the identity's email. -/
theorem extract_identity_no_audience (t : JWT) (idn : Identity)
    (hid : identityFromClaims t.claims = .ok idn) :
    (extractIdentity t = .error .noTokenAudience ↔
      isFoundStr (stringClaim t.claims claimAudience) = false)
    ∧ (isFoundStr (stringClaim t.claims claimPreferredName) = false →
        ∀ uc, extractIdentity t = .ok uc → uc.preferredName = idn.Email) := by
  constructor
  · simp only [extractIdentity, hid]
    rcases ha : stringClaim t.claims claimAudience with _ | _ | aud
    · simp [isFoundStr]
    · simp [isFoundStr]
    · rcases hr : realmRolesOf t.claims with u | rl
      · simp [isFoundStr, hr]
      · rcases hc : clientRolesOf t.claims with u | cl
        · simp [isFoundStr, hr, hc]
        · simp [isFoundStr, hr, hc]
  · intro hpref uc h
    simp only [extractIdentity, hid] at h
    rcases ha : stringClaim t.claims claimAudience with _ | _ | aud <;>
      simp only [ha] at h
    · cases h
    · cases h
    · rcases hr : realmRolesOf t.claims with u | rl <;> simp only [hr] at h
      · cases h
      · rcases hc : clientRolesOf t.claims with u | cl <;> simp only [hc] at h
        · cases h
        · rcases hp : stringClaim t.claims claimPreferredName with _ | _ | v <;>
            simp only [hp] at h
          · rw [← (Except.ok.injEq _ _).mp h]
          · rw [← (Except.ok.injEq _ _).mp h]
          · rw [hp] at hpref; cases hpref

/-- Witness for C9 (amended): a token with sub and email but no aud
claim aborts with the NoAudience error. -/
theorem extract_identity_no_audience_witness :
    extractIdentity
        { encoded := "tok",
          claims := [("sub", ClaimValue.str "1e11"),
                     ("email", ClaimValue.str "g@x")] }
      = .error .noTokenAudience :=
  (extract_identity_no_audience
      { encoded := "tok",
        claims := [("sub", ClaimValue.str "1e11"),
                   ("email", ClaimValue.str "g@x")] }
      { ID := "1e11", Email := "g@x", ExpiresAt := 0 } rfl).1.mpr rfl

/-! ## Claim C10 -/

/-- Helper: the fields of a successfully extracted user context: the
name field equals the preferred name, which is the
preferred_username claim when present as a string and the library
identity's email otherwise, and the id field is the library
identity's ID (the sub claim). -/
theorem extractIdentity_ok_fields (t : JWT) (uc : UserContext)
    (h : extractIdentity t = .ok uc) :
    ∃ idn, identityFromClaims t.claims = .ok idn
      ∧ uc.id = idn.ID
      ∧ uc.email = idn.Email
      ∧ uc.name = uc.preferredName
      ∧ (∀ v, stringClaim t.claims claimPreferredName = .found v →
          uc.preferredName = v)
      ∧ (isFoundStr (stringClaim t.claims claimPreferredName) = false →
          uc.preferredName = idn.Email) := by
  simp only [extractIdentity] at h
  rcases hid : identityFromClaims t.claims with e | idn <;> simp only [hid] at h
  · cases h
  · refine ⟨idn, rfl, ?_⟩
    rcases ha : stringClaim t.claims claimAudience with _ | _ | aud <;>
      simp only [ha] at h
    · cases h
    · cases h
    · rcases hr : realmRolesOf t.claims with u | rl <;> simp only [hr] at h
      · cases h
      · rcases hc : clientRolesOf t.claims with u | cl <;> simp only [hc] at h
        · cases h
        · have huc := ((Except.ok.injEq _ _).mp h).symm
          rcases hp : stringClaim t.claims claimPreferredName with _ | _ | v <;>
            simp only [hp] at huc <;> subst huc
          · exact ⟨rfl, rfl, rfl, fun v hv => by simp at hv, fun _ => rfl⟩
          · exact ⟨rfl, rfl, rfl, fun v hv => by simp at hv, fun _ => rfl⟩
          · exact ⟨rfl, rfl, rfl, fun w hw => by cases hw; rfl,
              fun hf => by simp [isFoundStr] at hf⟩

/-- Claim C10: the X-Auth-Userid and X-Auth-Username upstream headers
both carry the user's preferred name — the preferred_username claim,
or the email when that claim is absent — not the token's subject
identifier, which is carried only in X-Auth-Subject. -/
theorem upstream_userid_username_carry_preferred_name (t : JWT)
    (uc : UserContext) (idn : Identity) (addr host : String) (h : Headers)
    (hok : extractIdentity t = .ok uc)
    (hid : identityFromClaims t.claims = .ok idn) :
    upstreamHeadersHandler [] [] (some uc) addr host h "X-Auth-Userid"
        = h "X-Auth-Userid" ++ [uc.preferredName]
    ∧ upstreamHeadersHandler [] [] (some uc) addr host h "X-Auth-Username"
        = h "X-Auth-Username" ++ [uc.preferredName]
    ∧ upstreamHeadersHandler [] [] (some uc) addr host h "X-Auth-Subject"
        = h "X-Auth-Subject" ++ [idn.ID]
    ∧ (∀ v, stringClaim t.claims claimPreferredName = .found v →
        uc.preferredName = v)
    ∧ (isFoundStr (stringClaim t.claims claimPreferredName) = false →
        uc.preferredName = idn.Email) := by
  rcases extractIdentity_ok_fields t uc hok with
    ⟨idn0, hid0, hi, _, hn, hv, hf⟩
  have hsame : idn0 = idn := by
    rw [hid0] at hid
    exact (Except.ok.injEq _ _).mp hid
  subst hsame
  rcases upstreamHeadersHandler_values uc addr host h with
    ⟨_, _, _, h4, h5, h6, _⟩
  exact ⟨by rw [h4, hn], by rw [h6, hn], by rw [h5, hi], hv, hf⟩

/-- Witness for C10: a token whose preferred_username is rjayawardene
and whose subject is 1e11 yields rjayawardene under both X-Auth-Userid
and X-Auth-Username and 1e11 under X-Auth-Subject. -/
theorem upstream_userid_username_carry_preferred_name_witness :
    upstreamHeadersHandler [] []
        (some { id := "1e11", email := "g@x", name := "rjayawardene",
                preferredName := "rjayawardene", expiresAt := 7,
                roles := [], audience := "test",
                token := { encoded := "tok",
                           claims := [("sub", ClaimValue.str "1e11"),
                                      ("email", ClaimValue.str "g@x"),
                                      ("aud", ClaimValue.str "test"),
                                      ("exp", ClaimValue.num 7),
                                      ("preferred_username",
                                       ClaimValue.str "rjayawardene")] },
                claims := [("sub", ClaimValue.str "1e11"),
                           ("email", ClaimValue.str "g@x"),
                           ("aud", ClaimValue.str "test"),
                           ("exp", ClaimValue.num 7),
                           ("preferred_username",
                            ClaimValue.str "rjayawardene")],
                bearerToken := false })
        "1.2.3.4" "up.example" (fun _ => []) "X-Auth-Userid"
      = [] ++ ["rjayawardene"]
    ∧ upstreamHeadersHandler [] []
        (some { id := "1e11", email := "g@x", name := "rjayawardene",
                preferredName := "rjayawardene", expiresAt := 7,
                roles := [], audience := "test",
                token := { encoded := "tok",
                           claims := [("sub", ClaimValue.str "1e11"),
                                      ("email", ClaimValue.str "g@x"),
                                      ("aud", ClaimValue.str "test"),
                                      ("exp", ClaimValue.num 7),
                                      ("preferred_username",
                                       ClaimValue.str "rjayawardene")] },
                claims := [("sub", ClaimValue.str "1e11"),
                           ("email", ClaimValue.str "g@x"),
                           ("aud", ClaimValue.str "test"),
                           ("exp", ClaimValue.num 7),
                           ("preferred_username",
                            ClaimValue.str "rjayawardene")],
                bearerToken := false })
        "1.2.3.4" "up.example" (fun _ => []) "X-Auth-Subject"
      = [] ++ ["1e11"] := by
  have h := upstream_userid_username_carry_preferred_name
    { encoded := "tok",
      claims := [("sub", ClaimValue.str "1e11"),
                 ("email", ClaimValue.str "g@x"),
                 ("aud", ClaimValue.str "test"),
                 ("exp", ClaimValue.num 7),
                 ("preferred_username", ClaimValue.str "rjayawardene")] }
    { id := "1e11", email := "g@x", name := "rjayawardene",
      preferredName := "rjayawardene", expiresAt := 7,
      roles := [], audience := "test",
      token := { encoded := "tok",
                 claims := [("sub", ClaimValue.str "1e11"),
                            ("email", ClaimValue.str "g@x"),
                            ("aud", ClaimValue.str "test"),
                            ("exp", ClaimValue.num 7),
                            ("preferred_username",
                             ClaimValue.str "rjayawardene")] },
      claims := [("sub", ClaimValue.str "1e11"),
                 ("email", ClaimValue.str "g@x"),
                 ("aud", ClaimValue.str "test"),
                 ("exp", ClaimValue.num 7),
                 ("preferred_username", ClaimValue.str "rjayawardene")],
      bearerToken := false }
    { ID := "1e11", Email := "g@x", ExpiresAt := 7 }
    "1.2.3.4" "up.example" (fun _ => []) rfl rfl
  exact ⟨h.1, h.2.2.1⟩

end KeycloakProxy
